import Mathlib

/-!
Shallow embedding of `src/src/syscall/js/callback.go` (the js/wasm callback
bridge of the Go standard library): the callback Registry (the `callbacks`
map plus the `nextCallbackID` uint32 counter, both guarded by `callbacksMu`),
the Pending Queue (the JavaScript array `pendingCallbacks` shared with the
host), the trampolines produced by `makeCallbackHelper` and
`makeEventCallbackHelper`, and the dispatcher `callbackLoop` started once by
`callbackLoopOnce`.

Callback payloads are an abstract type `F` (the Go source stores values of
type `func([]Value)`); host values are an abstract type `V` (the opaque
`js.Value`).  Observable behaviour (starting the dispatcher goroutine,
invoking a registered function with arguments, and the
`console.error("call to closed callback")` diagnostic) is recorded as an
explicit event list so that theorems can talk about order of delivery.
-/

/-- An invocation record pushed by the plain trampoline:
`pendingCallbacks.push({ id: id, args: arguments })` in
`makeCallbackHelper`. -/
@[ext]
structure Record (V : Type) where
  id : Nat
  args : List V
  deriving DecidableEq

/-- The mutable globals of `callback.go`: the `callbacks` table, the
`nextCallbackID` counter (a Go `uint32`, so arithmetic is modulo `2 ^ 32`),
the `pendingCallbacks` array shared with the host, and whether
`callbackLoopOnce` has already started the dispatcher goroutine. -/
@[ext]
structure JsState (F V : Type) where
  callbacks : Nat → Option F
  nextCallbackID : Nat
  pendingCallbacks : List (Record V)
  started : Bool

/-- The initial state of the package: empty table, counter at 1
(`nextCallbackID uint32 = 1`), empty pending queue, loop not started. -/
def initState (F V : Type) : JsState F V :=
  { callbacks := fun _ => none
    nextCallbackID := 1
    pendingCallbacks := []
    started := false }

/-- Observable effects of the bridge: starting the dispatcher goroutine
(`go callbackLoop()` inside `callbackLoopOnce.Do`), invoking the registered
function stored under `id` with the record's arguments (`f(args)` in
`callbackLoop`), and the `console.error("call to closed callback")`
diagnostic. -/
inductive OutEv (V : Type) where
  | startDispatcher : OutEv V
  | deliver (id : Nat) (args : List V) : OutEv V
  | diag : OutEv V
  deriving DecidableEq

variable {F V : Type}

/-- `NewCallback(fn)`: runs `callbackLoopOnce.Do(go callbackLoop())`, then
under `callbacksMu` reads `id := nextCallbackID`, increments the uint32
counter, stores `fn` under `id`, and returns the new `Callback`'s id.
The result is the returned id, the new state, and the emitted effects. -/
def NewCallback (fn : F) (s : JsState F V) : Nat × JsState F V × List (OutEv V) :=
  (s.nextCallbackID,
   { s with
      started := true
      nextCallbackID := (s.nextCallbackID + 1) % 2 ^ 32
      callbacks := fun k => if k = s.nextCallbackID then some fn else s.callbacks k },
   if s.started then [] else [OutEv.startDispatcher])

/-- `Callback.Close`: `delete(callbacks, c.id)` under `callbacksMu`. -/
def Close (id : Nat) (s : JsState F V) : JsState F V :=
  { s with callbacks := fun k => if k = id then none else s.callbacks k }

/-- Invoking the plain trampoline returned by `makeCallbackHelper.Invoke`:
the host pushes `{ id: id, args: arguments }` onto `pendingCallbacks` and
signals the dispatcher via `resolveCallbackPromise`. -/
def invokeTrampoline (id : Nat) (args : List V) (s : JsState F V) : JsState F V :=
  { s with pendingCallbacks := s.pendingCallbacks ++ [⟨id, args⟩] }

/-- The inner drain loop of `callbackLoop`: `pendingCallbacks.Call("shift")`
front to back until the queue is empty; for each record the id is looked up
in `callbacks` under the lock; if absent the loop emits the
closed-callback diagnostic and continues, otherwise it copies the record's
arguments and invokes the stored function with them. -/
def callbackLoopDrain (cbs : Nat → Option F) : List (Record V) → List (OutEv V)
  | [] => []
  | r :: rest =>
    match cbs r.id with
    | none => OutEv.diag :: callbackLoopDrain cbs rest
    | some _ => OutEv.deliver r.id r.args :: callbackLoopDrain cbs rest

/-- One wake cycle of `callbackLoop`: return from `sleepUntilCallback`,
drain the whole pending queue, go back to sleep. -/
def wakeCycle (s : JsState F V) : JsState F V × List (OutEv V) :=
  ({ s with pendingCallbacks := [] }, callbackLoopDrain s.callbacks s.pendingCallbacks)

/-- External stimuli on the bridge: a Go-side registration (`NewCallback`),
a close (`Callback.Close`), a host-side invocation of the trampoline that
carries `id`, and one dispatcher wake cycle. -/
inductive Act (F V : Type) where
  | register (fn : F) : Act F V
  | close (id : Nat) : Act F V
  | invoke (id : Nat) (args : List V) : Act F V
  | wake : Act F V
  deriving DecidableEq

/-- One step of the whole system under a stimulus. -/
def stepAct (s : JsState F V) : Act F V → JsState F V × List (OutEv V)
  | Act.register fn => ((NewCallback fn s).2.1, (NewCallback fn s).2.2)
  | Act.close id => (Close id s, [])
  | Act.invoke id args => (invokeTrampoline id args s, [])
  | Act.wake => wakeCycle s

/-- Run a sequence of stimuli, collecting all emitted effects in order. -/
def runActs : JsState F V → List (Act F V) → JsState F V × List (OutEv V)
  | s, [] => (s, [])
  | s, a :: rest =>
    ((runActs (stepAct s a).1 rest).1, (stepAct s a).2 ++ (runActs (stepAct s a).1 rest).2)

/-- Host-side stimuli: trampoline invocations and dispatcher wakes. -/
def Act.isHost : Act F V → Bool
  | Act.invoke _ _ => true
  | Act.wake => true
  | _ => false

/-- Registration stimuli. -/
def Act.isRegister : Act F V → Bool
  | Act.register _ => true
  | _ => false

/-- The invocation records appended by the trampoline invocations of a
stimulus sequence, in order. -/
def invokedRecords : List (Act F V) → List (Record V)
  | [] => []
  | Act.invoke id args :: rest => ⟨id, args⟩ :: invokedRecords rest
  | _ :: rest => invokedRecords rest

/-- The delivery event for a record: the stored function invoked with the
record's arguments. -/
def toDeliver (r : Record V) : OutEv V := OutEv.deliver r.id r.args

/-- Dispatcher-start events. -/
def OutEv.isStart : OutEv V → Bool
  | OutEv.startDispatcher => true
  | _ => false

/-- Number of dispatcher starts among the emitted effects. -/
def countStarts (outs : List (OutEv V)) : Nat := outs.countP OutEv.isStart

/-- `PreventDefault = 1 << 0`. -/
def PreventDefault : Nat := 1

/-- `StopPropagation = 1 << 1`. -/
def StopPropagation : Nat := 2

/-- `StopImmediatePropagation = 1 << 2`. -/
def StopImmediatePropagation : Nat := 4

/-- Host-visible actions of the function built by `makeEventCallbackHelper`:
the three synchronous suppression calls on the event, and the call of the
inner plain trampoline, which enqueues an invocation record. -/
inductive EvAct (V : Type) where
  | preventDefault : EvAct V
  | stopPropagation : EvAct V
  | stopImmediatePropagation : EvAct V
  | enqueue (r : Record V) : EvAct V
  deriving DecidableEq

/-- The flag bit controlling each suppression action (0 for `enqueue`). -/
def evFlagBit : EvAct V → Nat
  | EvAct.preventDefault => PreventDefault
  | EvAct.stopPropagation => StopPropagation
  | EvAct.stopImmediatePropagation => StopImmediatePropagation
  | EvAct.enqueue _ => 0

/-- The body of the event trampoline built by `makeEventCallbackHelper`:
with the three booleans `flags&PreventDefault != 0`,
`flags&StopPropagation != 0`, `flags&StopImmediatePropagation != 0` it
conditionally calls `event.preventDefault()`, `event.stopPropagation()` and
`event.stopImmediatePropagation()` in that source order, then calls the
inner plain trampoline `fn(event)`, which pushes `{ id, args: [event] }`
onto the pending queue. -/
def eventTrampolineActs (flags : Nat) (id : Nat) (ev : V) : List (EvAct V) :=
  (if flags &&& PreventDefault ≠ 0 then [EvAct.preventDefault] else []) ++
    (if flags &&& StopPropagation ≠ 0 then [EvAct.stopPropagation] else []) ++
      (if flags &&& StopImmediatePropagation ≠ 0 then [EvAct.stopImmediatePropagation] else []) ++
        [EvAct.enqueue ⟨id, [ev]⟩]

/-- `NewEventCallback(flags, fn)`: registers the wrapper
`func(args []Value) { fn(args[0]) }` through `NewCallback` and returns a
`Callback` with the inner callback's id whose `enqueueFn` is the event
helper applied to the three flag bits.  The result is the pair
(id, flags) describing the returned `Callback`, the new state, and the
emitted effects. -/
def NewEventCallback (flags : Nat) (fn : F) (s : JsState F V) :
    (Nat × Nat) × JsState F V × List (OutEv V) :=
  (((NewCallback fn s).1, flags), (NewCallback fn s).2.1, (NewCallback fn s).2.2)

/-- The argument read by the function that `NewEventCallback` registers:
its body is `fn(args[0])`, so it reads the first element of the delivered
argument list with no length check; `none` models the out-of-range access
on too short a list. -/
def eventWrapperArg (args : List V) : Option V := args[0]?

/-- Iterate `NewCallback` (discarding the returned ids): the state after
`n` registrations. -/
def registerN (fn : F) : Nat → JsState F V → JsState F V
  | 0, s => s
  | n + 1, s => registerN fn n (NewCallback fn s).2.1

/-- The handle returned by the k-th `NewCallback` call (1-indexed) in a
fresh process that only registers. -/
def handleOfCall (A B : Type) (fn : A) (k : Nat) : Nat :=
  (NewCallback fn (registerN fn (k - 1) (initState A B))).1

/-- Micro-steps of one iteration of the drain loop of `callbackLoop`, in
source order: `callbacksMu.Lock()`, the lookup `callbacks[id]`,
`callbacksMu.Unlock()`, then either the diagnostic or the invocation
`f(args)` of the user function. -/
inductive MicroAct (V : Type) where
  | lockAcquire : MicroAct V
  | tableLookup (id : Nat) : MicroAct V
  | lockRelease : MicroAct V
  | emitDiag : MicroAct V
  | invokeUser (id : Nat) (args : List V) : MicroAct V
  deriving DecidableEq

/-- The micro-steps of one drain iteration on record `r`:
lock, look up `r.id`, unlock, then diagnostic (id absent) or user
invocation (id present). -/
def drainStepMicro (cbs : Nat → Option F) (r : Record V) : List (MicroAct V) :=
  [MicroAct.lockAcquire, MicroAct.tableLookup r.id, MicroAct.lockRelease] ++
    match cbs r.id with
    | none => [MicroAct.emitDiag]
    | some _ => [MicroAct.invokeUser r.id r.args]

/-- The micro-step trace of a full drain pass over the queue. -/
def drainMicro (cbs : Nat → Option F) : List (Record V) → List (MicroAct V)
  | [] => []
  | r :: rest => drainStepMicro cbs r ++ drainMicro cbs rest

/-- Checks the lock discipline of a micro-step trace starting at lock
depth `d`: table lookups happen with the lock held (depth exactly 1, and a
release never happens at depth 0), and user code is only ever invoked with
the lock free (depth 0). -/
def lockDiscipline : Nat → List (MicroAct V) → Bool
  | _, [] => true
  | d, MicroAct.lockAcquire :: rest => lockDiscipline (d + 1) rest
  | d, MicroAct.lockRelease :: rest => decide (0 < d) && lockDiscipline (d - 1) rest
  | d, MicroAct.tableLookup _ :: rest => decide (d = 1) && lockDiscipline d rest
  | d, MicroAct.emitDiag :: rest => lockDiscipline d rest
  | d, MicroAct.invokeUser _ _ :: rest => decide (d = 0) && lockDiscipline d rest

lemma callbackLoopDrain_all_registered (cbs : Nat → Option F) (q : List (Record V))
    (h : ∀ r ∈ q, (cbs r.id).isSome = true) :
    callbackLoopDrain cbs q = q.map toDeliver := by
  induction q with
  | nil => rfl
  | cons r rest ih =>
    have hr := h r (List.mem_cons_self r rest)
    cases hcb : cbs r.id with
    | none => rw [hcb] at hr; simp at hr
    | some f =>
      simp [callbackLoopDrain, hcb, toDeliver,
        ih (fun x hx => h x (List.mem_cons_of_mem _ hx))]

lemma countStarts_append (a b : List (OutEv V)) :
    countStarts (a ++ b) = countStarts a + countStarts b :=
  List.countP_append _ _ _

lemma countStarts_drain (cbs : Nat → Option F) (q : List (Record V)) :
    countStarts (callbackLoopDrain cbs q) = 0 := by
  induction q with
  | nil => rfl
  | cons r rest ih =>
    cases hcb : cbs r.id <;>
      simp [callbackLoopDrain, hcb, countStarts, OutEv.isStart] <;>
        simpa [countStarts] using ih

lemma runActs_cons (s : JsState F V) (a : Act F V) (rest : List (Act F V)) :
    runActs s (a :: rest)
      = ((runActs (stepAct s a).1 rest).1, (stepAct s a).2 ++ (runActs (stepAct s a).1 rest).2) :=
  rfl

lemma stepAct_countStarts (s : JsState F V) (a : Act F V) :
    countStarts (stepAct s a).2
      = if s.started = false ∧ a.isRegister = true then 1 else 0 := by
  cases a with
  | register fn =>
    cases hs : s.started <;>
      simp [stepAct, NewCallback, countStarts, OutEv.isStart, Act.isRegister, hs]
  | close id => simp [stepAct, countStarts, Act.isRegister]
  | invoke id args => simp [stepAct, countStarts, Act.isRegister]
  | wake =>
    rw [show (stepAct s Act.wake).2 = callbackLoopDrain s.callbacks s.pendingCallbacks from rfl,
      countStarts_drain]
    simp [Act.isRegister]

lemma stepAct_started (s : JsState F V) (a : Act F V) :
    (stepAct s a).1.started = (s.started || a.isRegister) := by
  cases a <;> simp [stepAct, NewCallback, Close, invokeTrampoline, wakeCycle, Act.isRegister]

lemma runActs_starts_general (acts : List (Act F V)) (s : JsState F V) :
    countStarts (runActs s acts).2
        = (if s.started = false ∧ acts.any Act.isRegister = true then 1 else 0)
      ∧ (runActs s acts).1.started = (s.started || acts.any Act.isRegister) := by
  induction acts generalizing s with
  | nil => simp [runActs, countStarts]
  | cons a rest ih =>
    have hih := ih (stepAct s a).1
    rw [runActs_cons]
    refine ⟨?_, ?_⟩
    · show countStarts ((stepAct s a).2 ++ (runActs (stepAct s a).1 rest).2) = _
      rw [countStarts_append, hih.1, stepAct_countStarts, stepAct_started]
      cases hs : s.started <;> cases ha : Act.isRegister a <;>
        cases hr : rest.any Act.isRegister <;> simp [List.any_cons, hs, ha, hr]
    · show (runActs (stepAct s a).1 rest).1.started = _
      rw [hih.2, stepAct_started]
      cases hs : s.started <;> cases ha : Act.isRegister a <;> simp [List.any_cons, hs, ha]

/-- C1: for every sequence of host-side stimuli (trampoline invocations and
dispatcher wakes) in which every invoked handle is registered, the delivery
events emitted so far followed by the deliveries of the still-pending
records are exactly the appended invocation records, in append order: the
pending queue is appended at the back, drained from the front until empty
on each wake, and no record is reordered, lost, or delivered more than
once, even across multiple wake cycles. -/
theorem dispatch_order_eq_append_order (s : JsState F V) (acts : List (Act F V))
    (hhost : ∀ a ∈ acts, a.isHost = true)
    (hreg : ∀ r ∈ s.pendingCallbacks ++ invokedRecords acts, (s.callbacks r.id).isSome = true) :
    (runActs s acts).2 ++ ((runActs s acts).1.pendingCallbacks.map toDeliver)
      = (s.pendingCallbacks ++ invokedRecords acts).map toDeliver := by
  induction acts generalizing s with
  | nil => simp [runActs, invokedRecords]
  | cons a rest ih =>
    cases a with
    | register fn => exact absurd (hhost _ (List.mem_cons_self _ _)) (by simp [Act.isHost])
    | close id => exact absurd (hhost _ (List.mem_cons_self _ _)) (by simp [Act.isHost])
    | invoke id args =>
      have hl : s.pendingCallbacks ++ invokedRecords (Act.invoke id args :: rest)
          = (invokeTrampoline id args s).pendingCallbacks ++ invokedRecords rest := by
        simp [invokeTrampoline, invokedRecords]
      have h2 : ∀ r ∈ (invokeTrampoline id args s).pendingCallbacks ++ invokedRecords rest,
          ((invokeTrampoline id args s).callbacks r.id).isSome = true := by
        intro r hr
        exact hreg r (by rw [hl]; exact hr)
      have hmain := ih (invokeTrampoline id args s)
        (fun x hx => hhost x (List.mem_cons_of_mem _ hx)) h2
      calc (runActs s (Act.invoke id args :: rest)).2
            ++ ((runActs s (Act.invoke id args :: rest)).1.pendingCallbacks.map toDeliver)
          = (runActs (invokeTrampoline id args s) rest).2
            ++ ((runActs (invokeTrampoline id args s) rest).1.pendingCallbacks.map toDeliver) := by
            simp [runActs, stepAct]
        _ = ((invokeTrampoline id args s).pendingCallbacks ++ invokedRecords rest).map
              toDeliver := hmain
        _ = (s.pendingCallbacks ++ invokedRecords (Act.invoke id args :: rest)).map toDeliver := by
            rw [hl]
    | wake =>
      have hpend : ∀ r ∈ s.pendingCallbacks, (s.callbacks r.id).isSome = true :=
        fun r hr => hreg r (List.mem_append_left _ hr)
      have h2 : ∀ r ∈ (stepAct s Act.wake).1.pendingCallbacks ++ invokedRecords rest,
          ((stepAct s Act.wake).1.callbacks r.id).isSome = true := by
        intro r hr
        refine hreg r (List.mem_append_right _ ?_)
        simpa [stepAct, wakeCycle, invokedRecords] using hr
      have hmain := ih (stepAct s Act.wake).1
        (fun x hx => hhost x (List.mem_cons_of_mem _ hx)) h2
      have hdrain := callbackLoopDrain_all_registered s.callbacks s.pendingCallbacks hpend
      have hpend0 : (stepAct s Act.wake).1.pendingCallbacks = [] := rfl
      calc (runActs s (Act.wake :: rest)).2
            ++ ((runActs s (Act.wake :: rest)).1.pendingCallbacks.map toDeliver)
          = callbackLoopDrain s.callbacks s.pendingCallbacks
            ++ ((runActs (stepAct s Act.wake).1 rest).2
              ++ ((runActs (stepAct s Act.wake).1 rest).1.pendingCallbacks.map toDeliver)) := by
            simp [runActs, stepAct, wakeCycle]
        _ = s.pendingCallbacks.map toDeliver
            ++ ((stepAct s Act.wake).1.pendingCallbacks ++ invokedRecords rest).map toDeliver := by
            rw [hdrain, hmain]
        _ = (s.pendingCallbacks ++ invokedRecords (Act.wake :: rest)).map toDeliver := by
            rw [hpend0]
            simp [invokedRecords]

/-- C5: starting from the initial state, a stimulus sequence emits exactly
one dispatcher start if it contains at least one registration and none
otherwise; and from any state where the dispatcher is already running no
further start is ever emitted and it stays running, so every later
registration observes it already started. -/
theorem dispatcher_started_once (acts : List (Act F V)) :
    countStarts (runActs (initState F V) acts).2 = (if acts.any Act.isRegister then 1 else 0)
    ∧ ∀ s : JsState F V, s.started = true →
        countStarts (runActs s acts).2 = 0 ∧ (runActs s acts).1.started = true := by
  constructor
  · have h := (runActs_starts_general acts (initState F V)).1
    simpa [initState] using h
  · intro s hs
    have h1 := (runActs_starts_general acts s).1
    have h2 := (runActs_starts_general acts s).2
    rw [hs] at h1 h2
    exact ⟨by simpa using h1, by simpa using h2⟩

lemma NewCallback_fst (fn : F) (s : JsState F V) : (NewCallback fn s).1 = s.nextCallbackID :=
  rfl

lemma registerN_nextCallbackID (fn : F) (n : Nat) (s : JsState F V)
    (h : s.nextCallbackID < 2 ^ 32) :
    (registerN fn n s).nextCallbackID = (s.nextCallbackID + n) % 2 ^ 32 := by
  induction n generalizing s with
  | zero =>
    show s.nextCallbackID = (s.nextCallbackID + 0) % 2 ^ 32
    rw [Nat.add_zero, Nat.mod_eq_of_lt h]
  | succ n ih =>
    have h2 : (s.nextCallbackID + 1) % 2 ^ 32 < 2 ^ 32 := Nat.mod_lt _ (by norm_num)
    have h3 : ((NewCallback fn s).2.1).nextCallbackID = (s.nextCallbackID + 1) % 2 ^ 32 := rfl
    rw [registerN, ih ((NewCallback fn s).2.1) (by rw [h3]; exact h2), h3, Nat.mod_add_mod]
    congr 1
    omega

lemma handleOfCall_eq (A B : Type) (fn : A) (k : Nat) (h1 : 1 ≤ k) (h2 : k < 2 ^ 32) :
    handleOfCall A B fn k = k := by
  show (registerN fn (k - 1) (initState A B)).nextCallbackID = k
  rw [registerN_nextCallbackID fn (k - 1) (initState A B) (by norm_num [initState])]
  have hpow : (2 : Nat) ^ 32 = 4294967296 := by norm_num
  simp only [initState, hpow]
  omega

/-- C2, counterexample: the handle counter is a Go `uint32`, so it wraps:
after 2 ^ 32 - 1 registrations in a fresh process the next `NewCallback`
call returns handle 0, contradicting the claim that no Register call ever
returns 0 (and, one call later, handle 1 is reused). -/
theorem nextCallbackID_wraps_to_zero :
    (NewCallback (0 : Nat) (registerN (0 : Nat) (2 ^ 32 - 1) (initState Nat Nat))).1 = 0 := by
  rw [NewCallback_fst]
  rw [registerN_nextCallbackID (0 : Nat) (2 ^ 32 - 1) (initState Nat Nat)
    (by norm_num [initState])]
  rw [show (initState Nat Nat).nextCallbackID = 1 from rfl]
  norm_num

/-- C2, amended: handles are allocated from a monotonically increasing
uint32 counter starting at 1 with 0 reserved, so as long as the process
performs fewer than 2 ^ 32 Register calls, any two distinct calls return
distinct handles, no handle is reused, and no call returns 0; the k-th call
returns k.  Beyond that the 32-bit counter wraps. -/
theorem handles_distinct_nonzero_before_wrap (A B : Type) (fn : A) (i j : Nat)
    (h1 : 1 ≤ i) (hij : i < j) (hj : j < 2 ^ 32) :
    handleOfCall A B fn i ≠ handleOfCall A B fn j ∧ handleOfCall A B fn i ≠ 0 := by
  rw [handleOfCall_eq A B fn i h1 (lt_trans hij hj), handleOfCall_eq A B fn j (by omega) hj]
  omega

/-- C3: when a drained record's handle is absent from the table (its
callback was closed before the record was resolved), the drain pass never
invokes any function under that handle, still produces exactly one output
event per queued record (so the loop never terminates early and no record
is delivered twice), and on such a record it emits the closed-callback
diagnostic and moves on to the rest of the queue. -/
theorem closed_callback_skipped (cbs : Nat → Option F) (id : Nat) (h : cbs id = none) :
    (∀ (q : List (Record V)) (args : List V), OutEv.deliver id args ∉ callbackLoopDrain cbs q)
    ∧ (∀ q : List (Record V), (callbackLoopDrain cbs q).length = q.length)
    ∧ (∀ (args : List V) (rest : List (Record V)),
        callbackLoopDrain cbs (⟨id, args⟩ :: rest) = OutEv.diag :: callbackLoopDrain cbs rest) := by
  refine ⟨?_, ?_, ?_⟩
  · intro q args hmem
    induction q with
    | nil => simp [callbackLoopDrain] at hmem
    | cons r rest ih =>
      cases hcb : cbs r.id with
      | none =>
        rw [show callbackLoopDrain cbs (r :: rest)
            = OutEv.diag :: callbackLoopDrain cbs rest by rw [callbackLoopDrain, hcb]] at hmem
        exact ih (by simpa using hmem)
      | some f =>
        rw [show callbackLoopDrain cbs (r :: rest)
            = OutEv.deliver r.id r.args :: callbackLoopDrain cbs rest by
          rw [callbackLoopDrain, hcb]] at hmem
        rcases List.mem_cons.1 hmem with heq | hmem'
        · simp only [OutEv.deliver.injEq] at heq
          rw [heq.1] at h
          rw [h] at hcb
          cases hcb
        · exact ih hmem'
  · intro q
    induction q with
    | nil => rfl
    | cons r rest ih => cases hcb : cbs r.id <;> simp [callbackLoopDrain, hcb, ih]
  · intro args rest
    simp [callbackLoopDrain, h]

/-- C4: for every flag set, the event trampoline performs a sublist of the
three suppression effects in the fixed source order preventDefault,
stopPropagation, stopImmediatePropagation — containing exactly the effects
whose flag bits are set — and only then enqueues the single-argument
invocation record, as its last action. -/
theorem event_effects_exactly_flagged (flags id : Nat) (ev : V) :
    ∃ l : List (EvAct V),
      eventTrampolineActs flags id ev = l ++ [EvAct.enqueue ⟨id, [ev]⟩]
      ∧ l.Sublist
          [EvAct.preventDefault, EvAct.stopPropagation, EvAct.stopImmediatePropagation]
      ∧ (EvAct.preventDefault ∈ l ↔ flags &&& PreventDefault ≠ 0)
      ∧ (EvAct.stopPropagation ∈ l ↔ flags &&& StopPropagation ≠ 0)
      ∧ (EvAct.stopImmediatePropagation ∈ l ↔ flags &&& StopImmediatePropagation ≠ 0) := by
  refine ⟨([EvAct.preventDefault, EvAct.stopPropagation, EvAct.stopImmediatePropagation] :
      List (EvAct V)).filter (fun a => decide (flags &&& evFlagBit a ≠ 0)),
    ?_, List.filter_sublist _, ?_, ?_, ?_⟩
  · by_cases h1 : flags &&& PreventDefault ≠ 0 <;>
      by_cases h2 : flags &&& StopPropagation ≠ 0 <;>
        by_cases h3 : flags &&& StopImmediatePropagation ≠ 0 <;>
          simp [eventTrampolineActs, evFlagBit, List.filter, h1, h2, h3]
  · simp [List.mem_filter, evFlagBit]
  · simp [List.mem_filter, evFlagBit]
  · simp [List.mem_filter, evFlagBit]

/-- C6: Close is idempotent and total: closing the same handle twice
yields the same state as closing it once, closing a handle that is absent
from the table is a no-op, and a close step never emits any event (no
error is ever signalled). -/
theorem close_idempotent_total (id : Nat) (s : JsState F V) :
    Close id (Close id s) = Close id s
    ∧ (s.callbacks id = none → Close id s = s)
    ∧ (stepAct s (Act.close id)).2 = [] := by
  refine ⟨?_, ?_, rfl⟩
  · cases s with
    | mk cbs nid pend st =>
      simp only [Close, JsState.mk.injEq, and_true, true_and]
      funext k
      by_cases hk : k = id <;> simp [hk]
  · intro h
    cases s with
    | mk cbs nid pend st =>
      simp only [Close, JsState.mk.injEq, and_true, true_and]
      funext k
      by_cases hk : k = id
      · subst hk
        simpa using h.symm
      · simp [hk]

/-- C7: the micro-step trace of every drain pass obeys the lock
discipline: starting with the lock free, the registry lock is acquired
only around the table lookup (every lookup happens at lock depth exactly
one) and is released again before the user callback body runs (every user
invocation happens at lock depth zero), so a callback body may itself
register or release callbacks without deadlock. -/
theorem no_lock_held_during_user_code (cbs : Nat → Option F) (q : List (Record V)) :
    lockDiscipline 0 (drainMicro cbs q) = true := by
  induction q with
  | nil => rfl
  | cons r rest ih =>
    cases hcb : cbs r.id <;>
      simp [drainMicro, drainStepMicro, hcb, lockDiscipline, ih]

/-- C8: Register and Release mutate only the Registry's state.
`NewCallback` returns the old counter value as the handle, adds exactly
the one new table entry, advances the uint32 counter, leaves the pending
queue and every other table entry unchanged, and never emits a delivery
event; `Close` removes exactly the entry of the given handle, leaves the
counter, the pending queue and every other entry unchanged, and emits no
event at all. -/
theorem register_close_frame (fn : F) (id0 : Nat) (s : JsState F V) :
    (NewCallback fn s).1 = s.nextCallbackID
    ∧ ((NewCallback fn s).2.1).callbacks (NewCallback fn s).1 = some fn
    ∧ (∀ k, k ≠ (NewCallback fn s).1 → ((NewCallback fn s).2.1).callbacks k = s.callbacks k)
    ∧ ((NewCallback fn s).2.1).nextCallbackID = (s.nextCallbackID + 1) % 2 ^ 32
    ∧ ((NewCallback fn s).2.1).pendingCallbacks = s.pendingCallbacks
    ∧ (∀ (i : Nat) (args : List V), OutEv.deliver i args ∉ (NewCallback fn s).2.2)
    ∧ (Close id0 s).callbacks id0 = none
    ∧ (∀ k, k ≠ id0 → (Close id0 s).callbacks k = s.callbacks k)
    ∧ (Close id0 s).nextCallbackID = s.nextCallbackID
    ∧ (Close id0 s).pendingCallbacks = s.pendingCallbacks
    ∧ (stepAct s (Act.close id0)).2 = [] := by
  refine ⟨rfl, by simp [NewCallback], ?_, rfl, rfl, ?_, by simp [Close], ?_, rfl, rfl, rfl⟩
  · intro k hk
    have hk' : k ≠ s.nextCallbackID := hk
    simp [NewCallback, hk']
  · intro i args
    by_cases h : s.started <;> simp [NewCallback, h]
  · intro k hk
    simp [Close, hk]

/-- C9: every invocation record enqueued by the event trampoline carries
exactly one argument, so the registered wrapper's unchecked read of
`args[0]` is in bounds and yields the event value; on a record with an
empty argument list the same read is out of bounds. -/
theorem event_wrapper_arg_access (flags id : Nat) (ev : V) :
    (∀ r : Record V, EvAct.enqueue r ∈ eventTrampolineActs flags id ev →
        r.args.length = 1 ∧ eventWrapperArg r.args = some ev)
    ∧ eventWrapperArg ([] : List V) = none := by
  refine ⟨?_, rfl⟩
  intro r hr
  have hre : r = ⟨id, [ev]⟩ := by
    revert hr
    unfold eventTrampolineActs
    by_cases h1 : flags &&& PreventDefault ≠ 0 <;>
      by_cases h2 : flags &&& StopPropagation ≠ 0 <;>
        by_cases h3 : flags &&& StopImmediatePropagation ≠ 0 <;>
          simp [h1, h2, h3]
  rw [hre]
  exact ⟨rfl, rfl⟩

/-- C10: the callback returned by `NewEventCallback` carries the same
handle as the plain callback it wraps, and only that one table entry is
created; closing it removes that single shared entry, after which invoking
the event trampoline still appends records for that handle to the pending
queue, but draining such a record produces only the closed-callback
diagnostic. -/
theorem event_callback_shares_handle (flags : Nat) (fn : F) (s : JsState F V) :
    (NewEventCallback flags fn s).1.1 = (NewCallback fn s).1
    ∧ ((NewEventCallback flags fn s).2.1).callbacks (NewEventCallback flags fn s).1.1 = some fn
    ∧ (∀ k, k ≠ (NewEventCallback flags fn s).1.1 →
        ((NewEventCallback flags fn s).2.1).callbacks k = s.callbacks k)
    ∧ (Close (NewEventCallback flags fn s).1.1 ((NewEventCallback flags fn s).2.1)).callbacks
        (NewEventCallback flags fn s).1.1 = none
    ∧ (∀ (ev : V) (s2 : JsState F V),
        (invokeTrampoline (NewEventCallback flags fn s).1.1 [ev] s2).pendingCallbacks
          = s2.pendingCallbacks ++ [⟨(NewEventCallback flags fn s).1.1, [ev]⟩])
    ∧ (∀ args : List V,
        callbackLoopDrain
          (Close (NewEventCallback flags fn s).1.1 ((NewEventCallback flags fn s).2.1)).callbacks
          [⟨(NewEventCallback flags fn s).1.1, args⟩] = [OutEv.diag]) := by
  refine ⟨rfl, by simp [NewEventCallback, NewCallback], ?_, by simp [NewEventCallback, Close],
    ?_, ?_⟩
  · intro k hk
    have hk' : k ≠ s.nextCallbackID := hk
    simp [NewEventCallback, NewCallback, hk']
  · intro ev s2
    rfl
  · intro args
    simp [callbackLoopDrain, Close, NewEventCallback, NewCallback]

/-- Witness for C1 on a concrete run: one registered callback, three
trampoline invocations spread over two wake cycles. -/
theorem dispatch_order_eq_append_order_witness :
    (runActs (NewCallback (0 : Nat) (initState Nat Nat)).2.1
        ([Act.invoke 1 [10], Act.invoke 1 [20], Act.wake, Act.invoke 1 [30], Act.wake] :
          List (Act Nat Nat))).2
      ++ (((runActs (NewCallback (0 : Nat) (initState Nat Nat)).2.1
        ([Act.invoke 1 [10], Act.invoke 1 [20], Act.wake, Act.invoke 1 [30], Act.wake] :
          List (Act Nat Nat))).1.pendingCallbacks).map toDeliver)
    = ((NewCallback (0 : Nat) (initState Nat Nat)).2.1.pendingCallbacks
        ++ invokedRecords
          ([Act.invoke 1 [10], Act.invoke 1 [20], Act.wake, Act.invoke 1 [30], Act.wake] :
            List (Act Nat Nat))).map toDeliver :=
  dispatch_order_eq_append_order _ _ (by decide) (by decide)

/-- Witness for the amended C2 at the first two calls. -/
theorem handles_distinct_nonzero_before_wrap_witness :
    handleOfCall Nat Nat (0 : Nat) 1 ≠ handleOfCall Nat Nat (0 : Nat) 2
    ∧ handleOfCall Nat Nat (0 : Nat) 1 ≠ 0 :=
  handles_distinct_nonzero_before_wrap Nat Nat 0 1 2 (by decide) (by decide) (by decide)

/-- Witness for C3: register, close, then drain a record for the closed
handle. -/
theorem closed_callback_skipped_witness :
    callbackLoopDrain (Close 1 (NewCallback (0 : Nat) (initState Nat Nat)).2.1).callbacks
        [⟨1, [(5 : Nat)]⟩]
      = OutEv.diag
        :: callbackLoopDrain (Close 1 (NewCallback (0 : Nat) (initState Nat Nat)).2.1).callbacks
          [] :=
  (closed_callback_skipped (Close 1 (NewCallback (0 : Nat) (initState Nat Nat)).2.1).callbacks 1
    rfl).2.2 [5] []

/-- Witness for C5: two registrations from the initial state produce one
start; from an already-started state they produce none. -/
theorem dispatcher_started_once_witness :
    countStarts (runActs (initState Nat Nat) [Act.register (0 : Nat), Act.register 1]).2
        = (if ([Act.register (0 : Nat), Act.register 1] : List (Act Nat Nat)).any Act.isRegister
            then 1 else 0)
    ∧ countStarts (runActs (NewCallback (0 : Nat) (initState Nat Nat)).2.1
        [Act.register (0 : Nat), Act.register 1]).2 = 0
    ∧ (runActs (NewCallback (0 : Nat) (initState Nat Nat)).2.1
        [Act.register (0 : Nat), Act.register 1]).1.started = true :=
  ⟨(dispatcher_started_once _).1,
   ((dispatcher_started_once _).2 _ rfl).1,
   ((dispatcher_started_once _).2 _ rfl).2⟩

/-- Witness for C6: closing an absent handle in the initial state is a
no-op, and closing twice equals closing once. -/
theorem close_idempotent_total_witness :
    Close 5 (Close 5 (initState Nat Nat)) = Close 5 (initState Nat Nat)
    ∧ Close 5 (initState Nat Nat) = initState Nat Nat :=
  ⟨(close_idempotent_total 5 (initState Nat Nat)).1,
   (close_idempotent_total 5 (initState Nat Nat)).2.1 rfl⟩

/-- Witness for C8: a registration leaves slot 2 untouched and a close of
handle 1 leaves slot 3 untouched. -/
theorem register_close_frame_witness :
    ((NewCallback (0 : Nat) (initState Nat Nat)).2.1).callbacks 2 = (initState Nat Nat).callbacks 2
    ∧ (Close 1 (initState Nat Nat)).callbacks 3 = (initState Nat Nat).callbacks 3 :=
  ⟨(register_close_frame 0 1 (initState Nat Nat)).2.2.1 2 (by decide),
   (register_close_frame 0 1 (initState Nat Nat)).2.2.2.2.2.2.2.1 3 (by decide)⟩

/-- Witness for C9: the record enqueued by the event trampoline with all
flags set carries one argument and the wrapper reads it back. -/
theorem event_wrapper_arg_access_witness :
    (⟨1, [(5 : Nat)]⟩ : Record Nat).args.length = 1
    ∧ eventWrapperArg (⟨1, [(5 : Nat)]⟩ : Record Nat).args = some 5 :=
  (event_wrapper_arg_access 7 1 5).1 ⟨1, [5]⟩ (by decide)

/-- Witness for C10: an event callback registration leaves slot 9
untouched, and after closing it a record for its handle drains to the
diagnostic alone. -/
theorem event_callback_shares_handle_witness :
    ((NewEventCallback 3 (0 : Nat) (initState Nat Nat)).2.1).callbacks 9
        = (initState Nat Nat).callbacks 9
    ∧ callbackLoopDrain
        (Close (NewEventCallback 3 (0 : Nat) (initState Nat Nat)).1.1
          ((NewEventCallback 3 (0 : Nat) (initState Nat Nat)).2.1)).callbacks
        [⟨(NewEventCallback 3 (0 : Nat) (initState Nat Nat)).1.1, ([] : List Nat)⟩]
      = [OutEv.diag] :=
  ⟨(event_callback_shares_handle 3 0 (initState Nat Nat)).2.2.1 9 (by decide),
   (event_callback_shares_handle 3 0 (initState Nat Nat)).2.2.2.2.2 ([] : List Nat)⟩
